import Mathlib

/-!
Verification development for the AI-Chat-Manager browser extension.

The definitions below are a shallow embedding of the extension's background
synchronization engine (src/background.ts), its cache-reconciliation helpers,
the popup's backup-then-delete loop (popup script), and the two platform
adapters (ChatGPT mapping-tree extraction, Claude flat-list pagination
emulation).  JavaScript numbers that hold epoch milliseconds, offsets and
counts are modelled as Nat; nullable values as Option; a thrown exception as
an explicit outcome constructor.  Asynchronous suspension points of the
single-threaded event loop are modelled explicitly where a claim depends on
them (the interleaving machine for the start-sync race); elsewhere one
invocation is a pure function from its inputs (including a script of remote
responses) to its storage effects and the trace of adapter calls it issues.
-/

namespace AIChatManager

/-- Unified conversation record, from src/platforms/types.ts lines 16-27.
The lazily enriched snippet and messageCount fields are never read by the
code under verification and are omitted. -/
structure UnifiedConversation where
  id : String
  title : String
  summary : Option String
  createTime : Nat
  updateTime : Nat
  platform : String
  isStarred : Option Bool
deriving DecidableEq, Repr

/-- Unified message record, from src/platforms/types.ts lines 29-34.  The
role union type is modelled as the underlying string. -/
structure UnifiedMessage where
  id : String
  role : String
  content : String
  createTime : Nat
deriving DecidableEq, Repr

/-- Platform cache blob, from src/platforms/types.ts lines 88-93. -/
structure PlatformCache where
  conversations : List UnifiedConversation
  totalCount : Nat
  lastSyncTime : Nat
  syncComplete : Bool
deriving DecidableEq, Repr

/-- Sync progress blob, from src/platforms/types.ts lines 95-99.  The code in
background.ts always writes inProgress: true into this blob. -/
structure SyncProgress where
  loaded : Nat
  total : Nat
  inProgress : Bool
deriving DecidableEq, Repr

/-- The slice of chrome.storage.local owned by one platform: its cache key,
sync-progress key and sync-error key (key helpers in src/platforms/types.ts
lines 102-112; the keys are distinct per platform, so one platform's run
touches exactly this record). -/
structure LocalStore where
  cache : Option PlatformCache
  syncProgress : Option SyncProgress
  syncError : Option String
deriving DecidableEq, Repr

/-- Result of checkAuth, from src/platforms/types.ts lines 36-40. -/
structure AuthResult where
  ok : Bool
  error : Option String
  message : Option String
deriving DecidableEq, Repr

/-- Per-platform engine state record, from src/background.ts line 79:
syncState holds inProgress and aborted flags for each platform. -/
structure EngineState where
  inProgress : Bool
  aborted : Bool
deriving DecidableEq, Repr

/-- Page size constant SYNC_BATCH_SIZE, src/background.ts line 86. -/
def SYNC_BATCH_SIZE : Nat := 50

/-- Freshness window constant CACHE_FRESHNESS_MS, src/background.ts line 88. -/
def CACHE_FRESHNESS_MS : Nat := 5 * 60 * 1000

/-- One remote call issued through the platform adapter by the engine. -/
inductive AdapterCall where
  | checkAuth
  | getConversations (offset limit : Nat)
deriving DecidableEq, Repr

/-- Behaviour of one adapter.getConversations invocation, as observed by the
engine at src/background.ts lines 179-187: the call either throws (throwErr),
or resolves to a result whose conversations field may be missing (page none,
the invalid-response branch at line 181) or present. -/
inductive FetchOutcome where
  | throwErr (msg : String)
  | page (conversations : Option (List UnifiedConversation)) (total : Nat) (hasMore : Bool)
deriving DecidableEq, Repr

/-- How the pagination loop of startSync ended.  stillRunning means the
supplied script of remote responses was exhausted while the loop still
wanted another page, i.e. the run is still in flight in that environment. -/
inductive LoopExit where
  | completed
  | abortedExit
  | invalidResponse
  | threw (msg : String)
  | stillRunning
deriving DecidableEq, Repr

/-- How a whole startSync invocation ended. -/
inductive RunExit where
  | skippedInProgress
  | authFailed
  | skippedFresh
  | ran (ex : LoopExit)
deriving DecidableEq, Repr

/-- Abort-flag environment: abortSeen abortAt i is the value of state.aborted
observed by the while-condition at src/background.ts line 176 at the top of
loop iteration i.  stopSync (line 242) only ever sets the flag to true and the
run start (line 164) resets it to false, so the observed values are monotone:
they are false before some iteration index and true from it on; abortAt is
that index (none when no stop request arrives during the run). -/
def abortSeen : Option Nat → Nat → Bool
  | none, _ => false
  | some a, i => decide (a ≤ i)

/-- Pagination loop of startSync, src/background.ts lines 171-217, as a
function of the script of remote responses.  Iteration i reads script entry i;
the accumulated list, the per-page cache overwrite (lines 192-204) and the
early exits (invalid response line 181, completion line 206, throw caught at
line 222) follow the code.  Date.now() is abstracted as the run clock now.
The JavaScript expression result.total || allConversations.length (line 187)
is falsy exactly when total is 0. -/
def syncLoop (abortAt : Option Nat) (now : Nat) :
    List FetchOutcome → Nat → List UnifiedConversation → LocalStore →
    LocalStore × List AdapterCall × LoopExit
  | script, i, acc, st =>
    if abortSeen abortAt i then (st, [], .abortedExit)
    else
      match script with
      | [] => (st, [], .stillRunning)
      | outcome :: rest =>
        let call := AdapterCall.getConversations (i * SYNC_BATCH_SIZE) SYNC_BATCH_SIZE
        match outcome with
        | .throwErr m => (st, [call], .threw m)
        | .page none _ _ => (st, [call], .invalidResponse)
        | .page (some convs) total hasMore =>
          let acc2 := acc ++ convs
          let totalCount := if total = 0 then acc2.length else total
          let st2 : LocalStore :=
            { st with
              cache := some ⟨acc2, totalCount, now, !hasMore⟩,
              syncProgress := some ⟨acc2.length, totalCount, true⟩ }
          if hasMore then
            let r := syncLoop abortAt now rest (i + 1) acc2 st2
            (r.1, call :: r.2.1, r.2.2)
          else
            (st2, [call], .completed)

/-- Cache freshness test of startSync, src/background.ts lines 151-161.
JavaScript truthiness of cache?.lastSyncTime makes a zero timestamp count as
not fresh; age is Date.now() - lastSyncTime. -/
def cacheIsFresh (c : Option PlatformCache) (now : Nat) : Bool :=
  match c with
  | none => false
  | some c => c.lastSyncTime != 0 && c.syncComplete && decide (now - c.lastSyncTime < CACHE_FRESHNESS_MS)

/-- One startSync invocation, src/background.ts lines 117-237, for a platform
whose adapter resolves (line 124) and whose checkAuth resolves to auth.  The
returned trace lists the adapter calls the invocation issues: the checkAuth
probe at line 137 and one getConversations per loop iteration.  The guard at
line 119 returns before any adapter call when inProgress is already true.
The engine state result reflects lines 163-164 (inProgress := true, aborted
:= false on entry to the run) and the finally block at line 234
(inProgress := false once the run ends). -/
def startSyncModel (state : EngineState) (auth : AuthResult) (forceRefresh : Bool)
    (now : Nat) (st : LocalStore) (script : List FetchOutcome) (abortAt : Option Nat) :
    LocalStore × EngineState × List AdapterCall × RunExit :=
  if state.inProgress then (st, state, [], .skippedInProgress)
  else
    let calls0 := [AdapterCall.checkAuth]
    if !auth.ok then
      ({ st with syncError := some (auth.message.getD "Authentication required") },
       state, calls0, .authFailed)
    else if !forceRefresh && cacheIsFresh st.cache now then
      (st, state, calls0, .skippedFresh)
    else
      let stRun := { st with syncError := none }
      let r := syncLoop abortAt now script 0 [] stRun
      match r.2.2 with
      | .threw m =>
        ({ r.1 with syncError := some m, syncProgress := none },
         ⟨false, abortAt.isSome⟩, calls0 ++ r.2.1, .ran (.threw m))
      | .stillRunning =>
        (r.1, ⟨true, abortAt.isSome⟩, calls0 ++ r.2.1, .ran .stillRunning)
      | ex =>
        ({ r.1 with syncProgress := none },
         ⟨false, abortAt.isSome⟩, calls0 ++ r.2.1, .ran ex)

/-- Cache reconciliation after a successful delete, src/background.ts lines
250-260: filter the deleted id out of the conversation list and set totalCount
to the new list length. -/
def removeFromCache (st : LocalStore) (conversationId : String) : LocalStore :=
  match st.cache with
  | none => st
  | some cache =>
    let conversations := cache.conversations.filter (fun c => c.id != conversationId)
    { st with
      cache := some { cache with conversations := conversations, totalCount := conversations.length } }

/-- DELETE_CONVERSATION handler, src/background.ts lines 351-373: call the
adapter's deleteConversation; on success run removeFromCache and respond with
success (none); when the adapter throws (deleteErr = some e) respond with the
error and leave storage untouched. -/
def deleteConversationOp (deleteErr : Option String) (st : LocalStore)
    (conversationId : String) : LocalStore × Option String :=
  match deleteErr with
  | some e => (st, some e)
  | none => (removeFromCache st conversationId, none)

/-!
Interleaving machine for concurrent startSync invocations of the same
platform.  startSync is an async function on a single-threaded event loop;
its atomic segments are separated by await suspension points.  The guard
state.inProgress is read in the first segment (src/background.ts line 119)
but only written after three awaits (getStoredToken line 131, checkAuth line
137, the cache read line 152), at line 163.  Each task's program counter
names the suspension point it is parked at.
-/

/-- Program counter of one startSync task.  entry: about to run the guard at
line 119; tokenRead: parked at the await of getStoredToken (line 131);
authDone: parked at the await of checkAuth (line 137); cacheRead: parked at
the await of the cache freshness read (line 152); looping: past line 163,
inside the pagination loop with inProgress set; returned: the invocation has
returned. -/
inductive TaskPC where
  | entry
  | tokenRead
  | authDone
  | cacheRead
  | looping
  | returned
deriving DecidableEq, Repr

/-- One atomic segment of a startSync task, given the shared inProgress flag.
authOk is the (successful) checkAuth outcome and cacheFresh the freshness
verdict of the cache read; forceRefresh is false, matching a plain
START_SYNC message.  Returns the new program counter and the new shared
inProgress flag. -/
def taskStep (authOk cacheFresh : Bool) (inProgress : Bool) :
    TaskPC → TaskPC × Bool
  | .entry => if inProgress then (.returned, inProgress) else (.tokenRead, inProgress)
  | .tokenRead => (.authDone, inProgress)
  | .authDone => if authOk then (.cacheRead, inProgress) else (.returned, inProgress)
  | .cacheRead => if cacheFresh then (.returned, inProgress) else (.looping, true)
  | .looping => (.looping, inProgress)
  | .returned => (.returned, inProgress)

/-- Two startSync tasks for the same platform sharing that platform's
syncState record (src/background.ts line 79). -/
structure TwoTasks where
  inProgress : Bool
  t0 : TaskPC
  t1 : TaskPC
deriving DecidableEq, Repr

/-- Scheduler step: run one atomic segment of the chosen task. -/
def sysStep (authOk cacheFresh : Bool) (s : TwoTasks) (who : Bool) : TwoTasks :=
  if who then
    let r := taskStep authOk cacheFresh s.inProgress s.t1
    { s with t1 := r.1, inProgress := r.2 }
  else
    let r := taskStep authOk cacheFresh s.inProgress s.t0
    { s with t0 := r.1, inProgress := r.2 }

/-- Run a schedule (a list of task choices) from a system state. -/
def sysRun (authOk cacheFresh : Bool) (sched : List Bool) (s : TwoTasks) : TwoTasks :=
  sched.foldl (sysStep authOk cacheFresh) s

/-- Number of tasks currently inside the pagination loop. -/
def loopingCount (s : TwoTasks) : Nat :=
  (if s.t0 = TaskPC.looping then 1 else 0) + (if s.t1 = TaskPC.looping then 1 else 0)

/-!
Popup backup-then-delete loop, from the popup script's confirm-button click
handler (unnamed popup source, lines 417-451): for each pending id, when the
backup checkbox is on, a BACKUP_CONVERSATION message is awaited first; an
error response marks the item failed and skips its deletion (the continue
statement); otherwise a DELETE_CONVERSATION message is awaited, a failure is
recorded, and a success removes the item from the popup's cached list.
-/

/-- One runtime message issued by the deletion loop. -/
inductive DelCall where
  | backupCall (id : String)
  | deleteCall (id : String)
deriving DecidableEq, Repr

/-- Deletion loop of the confirm-button handler.  backupErr and deleteErr
give the error field of the response to the backup and delete messages for a
given id (none = success).  Returns the ordered trace of messages issued,
the failedIds list, and the updated cached conversation list. -/
def processDeletions (shouldBackup : Bool) (backupErr deleteErr : String → Option String) :
    List String → List UnifiedConversation →
    List DelCall × List String × List UnifiedConversation
  | [], cached => ([], [], cached)
  | id :: rest, cached =>
    if shouldBackup then
      match backupErr id with
      | some _ =>
        let r := processDeletions shouldBackup backupErr deleteErr rest cached
        (DelCall.backupCall id :: r.1, id :: r.2.1, r.2.2)
      | none =>
        match deleteErr id with
        | some _ =>
          let r := processDeletions shouldBackup backupErr deleteErr rest cached
          (DelCall.backupCall id :: DelCall.deleteCall id :: r.1, id :: r.2.1, r.2.2)
        | none =>
          let cached2 := cached.filter (fun c => c.id != id)
          let r := processDeletions shouldBackup backupErr deleteErr rest cached2
          (DelCall.backupCall id :: DelCall.deleteCall id :: r.1, r.2.1, r.2.2)
    else
      match deleteErr id with
      | some _ =>
        let r := processDeletions shouldBackup backupErr deleteErr rest cached
        (DelCall.deleteCall id :: r.1, id :: r.2.1, r.2.2)
      | none =>
        let cached2 := cached.filter (fun c => c.id != id)
        let r := processDeletions shouldBackup backupErr deleteErr rest cached2
        (DelCall.deleteCall id :: r.1, r.2.1, r.2.2)

/-!
ChatGPT mapping-tree message extraction, from the ChatGPT data adapter
(extractMessages and its inner traverse).  The mapping object is modelled as
an association list preserving key order; JavaScript object lookup is the
first entry with the given key.  Date.now() inside the fallback createTime is
the parameter now.  The recursion of traverse has no visited set, so it is
embedded as a fuel-indexed function returning none when the fuel runs out;
a run of the JavaScript code terminates exactly when some fuel suffices.
-/

/-- Author of a mapping-node message (role field). -/
structure CGAuthor where
  role : String
deriving DecidableEq, Repr

/-- Content of a mapping-node message; parts may be absent (null/undefined).
A present empty list is truthy in JavaScript and is kept present here. -/
structure CGContent where
  parts : Option (List String)
deriving DecidableEq, Repr

/-- Message payload of a mapping node (ChatGPTMappingNode.message). -/
structure CGMessage where
  id : String
  author : Option CGAuthor
  content : Option CGContent
  create_time : Option Nat
deriving DecidableEq, Repr

/-- One node of the ChatGPT conversation mapping: parent/children links plus
an optional message.  An absent children array behaves like an empty one
(both skip the first-child recursion) and is modelled as the empty list. -/
structure CGNode where
  parent : Option String
  children : List String
  message : Option CGMessage
deriving DecidableEq, Repr

/-- Conversation detail: the mapping object, as an ordered association list.
A missing mapping (detail.mapping || {}) is the empty list. -/
structure CGDetail where
  mapping : List (String × CGNode)
deriving DecidableEq, Repr

/-- JavaScript object lookup mapping[nodeId]: the entry with the given key
(keys of an object are unique; find? takes the first). -/
def lookupNode (mapping : List (String × CGNode)) (nodeId : String) : Option CGNode :=
  (mapping.find? (fun p => p.1 == nodeId)).map (fun p => p.2)

/-- Truthiness of content.trim() for the non-empty check of the adapter: a
string trims to a non-empty string exactly when it contains a character that
is not whitespace. -/
def trimNonempty (s : String) : Bool :=
  s.toList.any (fun c => !c.isWhitespace)

/-- Message emitted for one visited node, or none when the node is filtered
out: the adapter keeps a node only when its message, content, content.parts
and author are all present, the author role is user or assistant, and the
joined parts are non-empty after trimming (adapter lines 37-52).  createTime
is create_time seconds times 1000 when present, else Date.now() (= now). -/
def emitNode (now : Nat) (node : CGNode) : Option UnifiedMessage :=
  match node.message with
  | none => none
  | some msg =>
    match msg.content, msg.author with
    | some content, some author =>
      match content.parts with
      | some parts =>
        if author.role == "user" || author.role == "assistant" then
          let contentStr := String.join parts
          if trimNonempty contentStr then
            some ⟨msg.id, author.role, contentStr,
              match msg.create_time with
              | some t => t * 1000
              | none => now⟩
          else none
        else none
      | none => none
    | _, _ => none

/-- Fuel-indexed embedding of the inner traverse function (adapter lines
33-58): return early on a null or unknown node id (an empty string is falsy
in JavaScript), emit the node's message when it passes the filter, then
recurse on the first child.  A none result means the recursion did not finish
within the given fuel. -/
def traverseF (mapping : List (String × CGNode)) (now : Nat) :
    Nat → Option String → Option (List UnifiedMessage)
  | 0, _ => none
  | _ + 1, none => some []
  | fuel + 1, some nodeId =>
    if nodeId = "" then some []
    else
      match lookupNode mapping nodeId with
      | none => some []
      | some node =>
        let tail := traverseF mapping now fuel node.children.head?
        match emitNode now node with
        | some msg => tail.map (fun t => msg :: t)
        | none => tail

/-- Root-finding of extractMessages (adapter line 61): the first mapping key
whose node has a falsy parent (absent or the empty string). -/
def rootId (mapping : List (String × CGNode)) : Option String :=
  (mapping.find? (fun p =>
    match p.2.parent with
    | none => true
    | some s => s == "")).map (fun p => p.1)

/-- Fuel-indexed embedding of extractMessages (adapter lines 29-65). -/
def extractMessagesF (now fuel : Nat) (detail : CGDetail) : Option (List UnifiedMessage) :=
  traverseF detail.mapping now fuel (rootId detail.mapping)

/-- Specification-side first-child path: the list of nodes visited from a
starting id following children.head? at each step, with the same fuel
convention as traverseF.  This is the path the specification describes
(root-to-leaf, first child at every node); it is defined independently of the
message filtering so that extractMessagesF can be compared against
filtering along this path. -/
def pathNodesF (mapping : List (String × CGNode)) :
    Nat → Option String → Option (List CGNode)
  | 0, _ => none
  | _ + 1, none => some []
  | fuel + 1, some nodeId =>
    if nodeId = "" then some []
    else
      match lookupNode mapping nodeId with
      | none => some []
      | some node => (pathNodesF mapping fuel node.children.head?).map (fun t => node :: t)

/-- Ids visited by traverseF within the given fuel (truncated at the fuel). -/
def visitedF (mapping : List (String × CGNode)) :
    Nat → Option String → List String
  | 0, _ => []
  | _ + 1, none => []
  | fuel + 1, some nodeId =>
    if nodeId = "" then []
    else
      match lookupNode mapping nodeId with
      | none => []
      | some node => nodeId :: visitedF mapping fuel node.children.head?

/-- Mapping with a first-child cycle reachable from the root: the single node
is its own first child. -/
def cycMapping : List (String × CGNode) :=
  [("a", ⟨none, ["a"], none⟩)]

/-!
Claude platform adapter, from src/platforms/claude/adapter.ts and the Claude
platform implementation's getConversations: the remote API returns the whole
conversation list at once; the adapter sorts it by update time descending
(a stable sort, as JavaScript's Array.prototype.sort) and emulates pagination
with slice(offset, offset + limit).  Date parsing of the ISO timestamp
strings (new Date(s).getTime()) is abstracted by the parameter dateMs.
-/

/-- Claude conversation record, from the Claude API wrapper interface
ClaudeConversation (fields used by the adapter). -/
structure ClaudeConversation where
  uuid : String
  name : String
  summary : String
  created_at : String
  updated_at : String
  is_starred : Bool
deriving DecidableEq, Repr

/-- Result shape of getConversations, src/platforms/types.ts lines 42-46. -/
structure ConversationsResult where
  conversations : List UnifiedConversation
  total : Nat
  hasMore : Bool
deriving DecidableEq, Repr

namespace Claude

/-- Claude toUnifiedConversation, src/platforms/claude/adapter.ts lines
12-22; conv.name || gives the Untitled fallback on the empty (falsy)
string. -/
def toUnifiedConversation (dateMs : String → Nat) (conv : ClaudeConversation) :
    UnifiedConversation :=
  { id := conv.uuid
    title := if conv.name = "" then "Untitled" else conv.name
    summary := some conv.summary
    createTime := dateMs conv.created_at
    updateTime := dateMs conv.updated_at
    platform := "claude"
    isStarred := some conv.is_starred }

/-- Comparator of the adapter's sort((a, b) => b.updateTime - a.updateTime):
a may precede b exactly when b.updateTime ≤ a.updateTime (descending,
stable on ties). -/
def descLe (a b : UnifiedConversation) : Bool :=
  decide (b.updateTime ≤ a.updateTime)

/-- ClaudePlatform.getConversations (Claude platform implementation, lines
89-107) applied to the full remote list data: sort the mapped list by update
time descending, slice out [offset, offset + limit), report the full length
as total and hasMore = offset + limit < total. -/
def getConversations (dateMs : String → Nat) (data : List ClaudeConversation)
    (offset limit : Nat) : ConversationsResult :=
  let allConversations := (data.map (toUnifiedConversation dateMs)).mergeSort descLe
  { conversations := (allConversations.drop offset).take limit
    total := allConversations.length
    hasMore := decide (offset + limit < allConversations.length) }

end Claude

/-!
Helper constructions used by the theorems: scripts made of well-formed
intermediate pages, the storage state after persisting a sequence of such
pages, the trace of page fetches, and sample data for concrete instances.
-/

/-- Script fragment of well-formed intermediate pages: each entry carries a
present conversations list, a reported total, and hasMore = true. -/
def goodScript (ps : List (List UnifiedConversation × Nat)) : List FetchOutcome :=
  ps.map (fun p => FetchOutcome.page (some p.1) p.2 true)

/-- Storage state after the pagination loop has persisted the pages ps on top
of accumulator acc (one wholesale cache overwrite per page, as at
src/background.ts lines 192-204). -/
def pagesState (now : Nat) :
    List UnifiedConversation → List (List UnifiedConversation × Nat) → LocalStore → LocalStore
  | _, [], st => st
  | acc, (convs, total) :: ps, st =>
    let acc2 := acc ++ convs
    let tc := if total = 0 then acc2.length else total
    pagesState now acc2 ps
      { st with
        cache := some ⟨acc2, tc, now, false⟩,
        syncProgress := some ⟨acc2.length, tc, true⟩ }

/-- Trace of n page fetches starting at iteration i. -/
def pageCalls : Nat → Nat → List AdapterCall
  | _, 0 => []
  | i, n + 1 =>
    AdapterCall.getConversations (i * SYNC_BATCH_SIZE) SYNC_BATCH_SIZE :: pageCalls (i + 1) n

/-- Sample conversation for concrete instances. -/
def convA : UnifiedConversation :=
  ⟨"conv-a", "Alpha", none, 10, 20, "chatgpt", none⟩

/-- Second sample conversation for concrete instances. -/
def convB : UnifiedConversation :=
  ⟨"conv-b", "Beta", none, 11, 21, "chatgpt", none⟩

/-- Successful authentication result for concrete instances. -/
def authOkResult : AuthResult := ⟨true, none, none⟩

/-- Empty per-platform storage for concrete instances. -/
def emptyStore : LocalStore := ⟨none, none, none⟩

/-!
Lemmas about the pagination loop.
-/

/-- Processing a fragment of well-formed intermediate pages advances the loop
past them: it accumulates their conversations, persists each page, emits one
page fetch per page, and continues on the remaining script. -/
theorem syncLoop_goodScript (abortAt : Option Nat) (now : Nat)
    (ps : List (List UnifiedConversation × Nat)) (rest : List FetchOutcome) :
    ∀ (i : Nat) (acc : List UnifiedConversation) (st : LocalStore),
    (∀ j, j < ps.length → abortSeen abortAt (i + j) = false) →
    syncLoop abortAt now (goodScript ps ++ rest) i acc st =
      (let r := syncLoop abortAt now rest (i + ps.length)
                  (acc ++ ps.flatMap Prod.fst) (pagesState now acc ps st)
       (r.1, pageCalls i ps.length ++ r.2.1, r.2.2)) := by
  induction ps with
  | nil =>
    intro i acc st _
    simp [goodScript, pagesState, pageCalls]
  | cons p ps ih =>
    intro i acc st h
    obtain ⟨convs, total⟩ := p
    have h0 : abortSeen abortAt i = false := by
      have := h 0 (by simp)
      simpa using this
    have h1 : ∀ j, j < ps.length → abortSeen abortAt (i + 1 + j) = false := by
      intro j hj
      have := h (j + 1) (by simpa using Nat.succ_lt_succ hj)
      rwa [show i + (j + 1) = i + 1 + j by omega] at this
    have step1 : syncLoop abortAt now (goodScript ((convs, total) :: ps) ++ rest) i acc st =
        (let r := syncLoop abortAt now (goodScript ps ++ rest) (i + 1) (acc ++ convs)
          { st with
            cache := some ⟨acc ++ convs, if total = 0 then (acc ++ convs).length else total, now, false⟩,
            syncProgress := some ⟨(acc ++ convs).length, if total = 0 then (acc ++ convs).length else total, true⟩ }
         (r.1, AdapterCall.getConversations (i * SYNC_BATCH_SIZE) SYNC_BATCH_SIZE :: r.2.1, r.2.2)) := by
      rw [show goodScript ((convs, total) :: ps) ++ rest =
            FetchOutcome.page (some convs) total true :: (goodScript ps ++ rest) from rfl, syncLoop]
      simp [h0]
    have ih2 := ih (i + 1) (acc ++ convs)
      { st with
        cache := some ⟨acc ++ convs, if total = 0 then (acc ++ convs).length else total, now, false⟩,
        syncProgress := some ⟨(acc ++ convs).length, if total = 0 then (acc ++ convs).length else total, true⟩ }
      h1
    rw [step1]
    simp only [ih2]
    simp [pagesState, pageCalls, List.flatMap_cons, List.append_assoc,
      show i + (ps.length + 1) = i + 1 + ps.length from by omega]

/-- After persisting a non-empty sequence of intermediate pages the cache
holds exactly the accumulated conversations with syncComplete = false, the
progress blob matches, and the error key is untouched. -/
theorem pagesState_cache (now : Nat) (ps : List (List UnifiedConversation × Nat)) :
    ∀ (acc : List UnifiedConversation) (st : LocalStore), ps ≠ [] →
    ∃ tc, pagesState now acc ps st =
      { st with
        cache := some ⟨acc ++ ps.flatMap Prod.fst, tc, now, false⟩,
        syncProgress := some ⟨(acc ++ ps.flatMap Prod.fst).length, tc, true⟩ } := by
  induction ps with
  | nil => intro acc st h; exact absurd rfl h
  | cons p ps ih =>
    intro acc st _
    obtain ⟨convs, total⟩ := p
    by_cases hps : ps = []
    · subst hps
      refine ⟨if total = 0 then (acc ++ convs).length else total, ?_⟩
      simp [pagesState]
    · obtain ⟨tc, htc⟩ := ih (acc ++ convs)
        { st with
          cache := some ⟨acc ++ convs, if total = 0 then (acc ++ convs).length else total, now, false⟩,
          syncProgress := some ⟨(acc ++ convs).length, if total = 0 then (acc ++ convs).length else total, true⟩ }
        hps
      refine ⟨tc, ?_⟩
      rw [show pagesState now acc ((convs, total) :: ps) st =
        pagesState now (acc ++ convs) ps
          { st with
            cache := some ⟨acc ++ convs, if total = 0 then (acc ++ convs).length else total, now, false⟩,
            syncProgress := some ⟨(acc ++ convs).length, if total = 0 then (acc ++ convs).length else total, true⟩ } from rfl]
      rw [htc]
      simp [List.flatMap_cons, List.append_assoc]

/-- Unfolding of pageCalls at the far end: the trace of n + 1 page fetches is
the trace of the first n followed by the last fetch. -/
theorem pageCalls_snoc (n : Nat) : ∀ i : Nat, pageCalls i (n + 1) =
    pageCalls i n ++
      [AdapterCall.getConversations ((i + n) * SYNC_BATCH_SIZE) SYNC_BATCH_SIZE] := by
  induction n with
  | zero => intro i; simp [pageCalls]
  | succ n ihn =>
    intro i
    rw [pageCalls, ihn (i + 1), pageCalls]
    simp [show i + 1 + n = i + (n + 1) from by omega]

/-- Persisting pages never touches the sync-error key. -/
theorem pagesState_syncError (now : Nat) (ps : List (List UnifiedConversation × Nat)) :
    ∀ (acc : List UnifiedConversation) (st : LocalStore),
    (pagesState now acc ps st).syncError = st.syncError := by
  induction ps with
  | nil => intro acc st; rfl
  | cons p ps ih =>
    intro acc st
    obtain ⟨convs, total⟩ := p
    exact ih (acc ++ convs) _

/-- Characterization of a startSync invocation that actually enters the run
and completes normally: the script is a fragment of intermediate pages
followed by a final page with hasMore = false.  The final storage has the
accumulated conversations with syncComplete = true, the totalCount computed
from the last page (result.total or, when that is 0, the accumulated
length), no sync-progress blob and no sync-error; the engine state is back
to idle and the trace is the checkAuth probe followed by one page fetch per
page. -/
theorem startSync_completed_run (state : EngineState) (auth : AuthResult) (forceRefresh : Bool)
    (now : Nat) (st : LocalStore) (ps : List (List UnifiedConversation × Nat))
    (lastConvs : List UnifiedConversation) (lastTotal : Nat)
    (h1 : state.inProgress = false) (h2 : auth.ok = true)
    (h3 : forceRefresh = true ∨ cacheIsFresh st.cache now = false) :
    startSyncModel state auth forceRefresh now st
        (goodScript ps ++ [FetchOutcome.page (some lastConvs) lastTotal false]) none =
      ({ cache := some ⟨ps.flatMap Prod.fst ++ lastConvs,
           (if lastTotal = 0 then (ps.flatMap Prod.fst ++ lastConvs).length else lastTotal),
           now, true⟩,
         syncProgress := none,
         syncError := none },
       ⟨false, false⟩, AdapterCall.checkAuth :: pageCalls 0 (ps.length + 1),
       RunExit.ran .completed) := by
  have hcond : (!forceRefresh && cacheIsFresh st.cache now) = false := by
    rcases h3 with h3 | h3 <;> simp [h3]
  have hloop := syncLoop_goodScript none now ps
    [FetchOutcome.page (some lastConvs) lastTotal false] 0 []
    { st with syncError := none } (by intro j _; rfl)
  have hlast : syncLoop none now [FetchOutcome.page (some lastConvs) lastTotal false]
      (0 + ps.length) ([] ++ ps.flatMap Prod.fst)
      (pagesState now [] ps { st with syncError := none }) =
      ({ pagesState now [] ps { st with syncError := none } with
          cache := some ⟨[] ++ ps.flatMap Prod.fst ++ lastConvs,
            (if lastTotal = 0 then ([] ++ ps.flatMap Prod.fst ++ lastConvs).length else lastTotal),
            now, true⟩,
          syncProgress := some ⟨([] ++ ps.flatMap Prod.fst ++ lastConvs).length,
            (if lastTotal = 0 then ([] ++ ps.flatMap Prod.fst ++ lastConvs).length else lastTotal),
            true⟩ },
       [AdapterCall.getConversations ((0 + ps.length) * SYNC_BATCH_SIZE) SYNC_BATCH_SIZE],
       .completed) := by
    rw [syncLoop]
    simp [abortSeen]
  rw [hlast] at hloop
  simp only [startSyncModel, h1, h2, hcond]
  simp only [Bool.not_true, Bool.false_and, Bool.false_eq_true, if_false, ite_false]
  rw [hloop]
  simp [pagesState_syncError, pageCalls_snoc]

/-- A non-forced start with a fresh cache is skipped right after the auth
probe: storage and engine state are unchanged and the only adapter call is
checkAuth. -/
theorem startSync_fresh_skip (state : EngineState) (auth : AuthResult) (now : Nat)
    (st : LocalStore) (script : List FetchOutcome) (abortAt : Option Nat)
    (h1 : state.inProgress = false) (h2 : auth.ok = true)
    (hf : cacheIsFresh st.cache now = true) :
    startSyncModel state auth false now st script abortAt =
      (st, state, [AdapterCall.checkAuth], RunExit.skippedFresh) := by
  simp [startSyncModel, h1, h2, hf]

/-!
Claim theorems.
-/

/-- Claim C1.  The claim states that the number of concurrently active
pagination loops for one platform never exceeds 1, even when two start
requests interleave at the engine's asynchronous suspension points.  The
code violates this: the guard at src/background.ts line 119 reads
state.inProgress, but the flag is only set at line 163, after the awaits of
getStoredToken (line 131), checkAuth (line 137) and the cache read (line
152).  This theorem evaluates the interleaving machine on the failing
schedule: task 0 starts and is parked at its token read; task 1 then passes
the guard (inProgress is still false); both proceed into the pagination
loop, so two loops are active at once. -/
theorem claim_C1_two_concurrent_loops :
    loopingCount (sysRun true false
      [false, true, false, false, false, true, true, true]
      ⟨false, TaskPC.entry, TaskPC.entry⟩) = 2 := by
  decide

/-- Claim C2, counterexample.  The claim states that the second non-forced
start with a fresh cache performs zero remote calls, being skipped before
even the checkAuth probe.  In the code the checkAuth call at
src/background.ts line 137 precedes the freshness check at lines 151-161, so
the skipped invocation still issues the checkAuth probe (a remote request:
the ChatGPT adapter's checkAuth with a stored token fetches a page, the
Claude adapter's checkAuth fetches the organizations).  Concretely, with a
fresh cache (syncComplete, lastSyncTime = now) the issued trace is
[checkAuth], not the empty trace the claim requires. -/
theorem claim_C2_counterexample :
    (startSyncModel ⟨false, false⟩ authOkResult false 1000
        ⟨some ⟨[convA], 1, 1000, true⟩, none, none⟩ [] none).2.2.1 =
      [AdapterCall.checkAuth] ∧
    ([AdapterCall.checkAuth] : List AdapterCall) ≠ ([] : List AdapterCall) := by
  decide

/-- Claim C2, amended: calling start sync with forceRefresh = false twice in
quick succession, when the first run completed normally and less than the
5-minute window has passed, makes the checkAuth probe but zero page-fetch
(getConversations) calls on the second invocation; the second run is skipped
after the auth probe and before any page is fetched, and storage is left
unchanged. -/
theorem claim_C2_amended (now1 now2 : Nat) (st : LocalStore)
    (ps : List (List UnifiedConversation × Nat)) (lastConvs : List UnifiedConversation)
    (lastTotal : Nat) (auth1 auth2 : AuthResult) (forceRefresh1 : Bool)
    (script2 : List FetchOutcome) (abortAt2 : Option Nat)
    (h1 : auth1.ok = true)
    (h3 : forceRefresh1 = true ∨ cacheIsFresh st.cache now1 = false)
    (hnow1 : now1 ≠ 0) (hfresh : now2 - now1 < CACHE_FRESHNESS_MS)
    (h2 : auth2.ok = true) :
    startSyncModel
        (startSyncModel ⟨false, false⟩ auth1 forceRefresh1 now1 st
          (goodScript ps ++ [FetchOutcome.page (some lastConvs) lastTotal false]) none).2.1
        auth2 false now2
        (startSyncModel ⟨false, false⟩ auth1 forceRefresh1 now1 st
          (goodScript ps ++ [FetchOutcome.page (some lastConvs) lastTotal false]) none).1
        script2 abortAt2 =
      ((startSyncModel ⟨false, false⟩ auth1 forceRefresh1 now1 st
          (goodScript ps ++ [FetchOutcome.page (some lastConvs) lastTotal false]) none).1,
       (startSyncModel ⟨false, false⟩ auth1 forceRefresh1 now1 st
          (goodScript ps ++ [FetchOutcome.page (some lastConvs) lastTotal false]) none).2.1,
       [AdapterCall.checkAuth], RunExit.skippedFresh) ∧
    (∀ off lim, AdapterCall.getConversations off lim ∉
      ([AdapterCall.checkAuth] : List AdapterCall)) := by
  have hbne : (now1 != 0) = true := by simpa using hnow1
  have hfresh2 : cacheIsFresh (some ⟨ps.flatMap Prod.fst ++ lastConvs,
      (if lastTotal = 0 then (ps.flatMap Prod.fst ++ lastConvs).length else lastTotal),
      now1, true⟩) now2 = true := by
    simp [cacheIsFresh, hbne, hfresh]
  constructor
  · rw [startSync_completed_run ⟨false, false⟩ auth1 forceRefresh1 now1 st ps lastConvs lastTotal
      rfl h1 h3]
    exact startSync_fresh_skip _ _ _ _ _ _ rfl h2 hfresh2
  · intro off lim
    simp

/-- Claim C2, witness: a concrete completed first run followed by a second
start 1 second later. -/
theorem claim_C2_witness :
    startSyncModel
        (startSyncModel ⟨false, false⟩ authOkResult true 1000 emptyStore
          (goodScript [] ++ [FetchOutcome.page (some [convA]) 0 false]) none).2.1
        authOkResult false 2000
        (startSyncModel ⟨false, false⟩ authOkResult true 1000 emptyStore
          (goodScript [] ++ [FetchOutcome.page (some [convA]) 0 false]) none).1
        [] none =
      ((startSyncModel ⟨false, false⟩ authOkResult true 1000 emptyStore
          (goodScript [] ++ [FetchOutcome.page (some [convA]) 0 false]) none).1,
       (startSyncModel ⟨false, false⟩ authOkResult true 1000 emptyStore
          (goodScript [] ++ [FetchOutcome.page (some [convA]) 0 false]) none).2.1,
       [AdapterCall.checkAuth], RunExit.skippedFresh) ∧
    (∀ off lim, AdapterCall.getConversations off lim ∉
      ([AdapterCall.checkAuth] : List AdapterCall)) :=
  claim_C2_amended 1000 2000 emptyStore [] [convA] 0 authOkResult authOkResult true [] none
    rfl (Or.inl rfl) (by decide) (by decide) rfl

/-- Claim C3, counterexample.  The claim states that after a successful
delete totalCount decreases by exactly 1 for every prior cache state,
including a partially-synced cache whose totalCount exceeds the list length.
removeFromCache (src/background.ts lines 250-260) instead sets totalCount to
the length of the filtered list: deleting the only cached conversation from
a cache with totalCount = 5 yields totalCount 0, not 4. -/
theorem claim_C3_counterexample :
    (deleteConversationOp none ⟨some ⟨[convA], 5, 1, false⟩, none, none⟩ "conv-a").1.cache =
      some ⟨[], 0, 1, false⟩ ∧
    (0 : Nat) ≠ 5 - 1 := by
  decide

/-- Claim C3, amended: after a successful delete the deleted id is absent
from the cache's conversation list and totalCount is set to the new list
length — which equals the old totalCount minus 1 exactly when the old
totalCount equalled the list length (fully reconciled cache) and the id
occurred exactly once; after a failed delete the store is unchanged. -/
theorem claim_C3_amended (st : LocalStore) (cache : PlatformCache) (cid e : String)
    (h : st.cache = some cache) :
    (∃ c, (deleteConversationOp none st cid).1.cache = some c ∧
      c.conversations = cache.conversations.filter (fun x => x.id != cid) ∧
      (∀ x ∈ c.conversations, x.id ≠ cid) ∧
      c.totalCount = c.conversations.length ∧
      (cache.totalCount = cache.conversations.length →
        (cache.conversations.filter (fun x => x.id == cid)).length = 1 →
        c.totalCount = cache.totalCount - 1)) ∧
    deleteConversationOp (some e) st cid = (st, some e) := by
  constructor
  · refine ⟨⟨cache.conversations.filter (fun x => x.id != cid),
      (cache.conversations.filter (fun x => x.id != cid)).length,
      cache.lastSyncTime, cache.syncComplete⟩, ?_, rfl, ?_, rfl, ?_⟩
    · simp [deleteConversationOp, removeFromCache, h]
    · intro x hx
      have := List.of_mem_filter hx
      simpa using this
    · intro hlen hone
      have hsplit : cache.conversations.length =
          (cache.conversations.filter (fun x => x.id == cid)).length +
          (cache.conversations.filter (fun x => !(x.id == cid))).length :=
        List.length_eq_length_filter_add _
      show (cache.conversations.filter (fun x => !(x.id == cid))).length =
        cache.totalCount - 1
      omega
  · rfl

/-- Claim C3, witness: a fully reconciled two-element cache, a successful
delete of conv-a, and a failing delete. -/
theorem claim_C3_witness :
    (∃ c, (deleteConversationOp none ⟨some ⟨[convA, convB], 2, 1, true⟩, none, none⟩ "conv-a").1.cache
        = some c ∧
      c.conversations = ([convA, convB] : List UnifiedConversation).filter (fun x => x.id != "conv-a") ∧
      (∀ x ∈ c.conversations, x.id ≠ "conv-a") ∧
      c.totalCount = c.conversations.length ∧
      ((2 : Nat) = ([convA, convB] : List UnifiedConversation).length →
        (([convA, convB] : List UnifiedConversation).filter (fun x => x.id == "conv-a")).length = 1 →
        c.totalCount = 2 - 1)) ∧
    deleteConversationOp (some "boom") ⟨some ⟨[convA, convB], 2, 1, true⟩, none, none⟩ "conv-a" =
      (⟨some ⟨[convA, convB], 2, 1, true⟩, none, none⟩, some "boom") :=
  claim_C3_amended ⟨some ⟨[convA, convB], 2, 1, true⟩, none, none⟩
    ⟨[convA, convB], 2, 1, true⟩ "conv-a" "boom" rfl


/-- Claim C4, counterexample.  The claim states that every normally
completing run (usable pages, final page hasMore = false) ends with
conversations.length equal to the totalCount reported by the last page.  The
engine stores totalCount := result.total (or the accumulated length when
that is 0, src/background.ts line 187) but never reconciles it with the
accumulated list: a single page carrying 1 conversation while reporting
total = 5 completes normally with conversations.length = 1 and
totalCount = 5. -/
theorem claim_C4_counterexample :
    (startSyncModel ⟨false, false⟩ authOkResult true 1000 emptyStore
        [FetchOutcome.page (some [convA]) 5 false] none).1 =
      ⟨some ⟨[convA], 5, 1000, true⟩, none, none⟩ ∧
    (startSyncModel ⟨false, false⟩ authOkResult true 1000 emptyStore
        [FetchOutcome.page (some [convA]) 5 false] none).2.2.2 =
      RunExit.ran LoopExit.completed ∧
    ([convA] : List UnifiedConversation).length ≠ 5 := by
  decide

/-- Claim C4, amended: for every run that completes normally the final cache
has syncComplete = true and the Sync Progress entry is absent, and the final
totalCount is the last page's reported total (or the accumulated length when
that report is 0); conversations.length equals totalCount under the further
assumption that the last page's reported total is 0 or equals the number of
conversations accumulated over all pages (as holds for an adapter satisfying
the page contract, e.g. the flat-list emulation). -/
theorem claim_C4_amended (state : EngineState) (auth : AuthResult) (forceRefresh : Bool)
    (now : Nat) (st : LocalStore) (ps : List (List UnifiedConversation × Nat))
    (lastConvs : List UnifiedConversation) (lastTotal : Nat)
    (h1 : state.inProgress = false) (h2 : auth.ok = true)
    (h3 : forceRefresh = true ∨ cacheIsFresh st.cache now = false) :
    ∃ c, (startSyncModel state auth forceRefresh now st
        (goodScript ps ++ [FetchOutcome.page (some lastConvs) lastTotal false]) none).1.cache =
        some c ∧
      c.syncComplete = true ∧
      c.conversations = ps.flatMap Prod.fst ++ lastConvs ∧
      c.totalCount = (if lastTotal = 0 then c.conversations.length else lastTotal) ∧
      (startSyncModel state auth forceRefresh now st
        (goodScript ps ++ [FetchOutcome.page (some lastConvs) lastTotal false]) none).1.syncProgress
        = none ∧
      (startSyncModel state auth forceRefresh now st
        (goodScript ps ++ [FetchOutcome.page (some lastConvs) lastTotal false]) none).2.1.inProgress
        = false ∧
      (lastTotal = 0 ∨ lastTotal = (ps.flatMap Prod.fst ++ lastConvs).length →
        c.conversations.length = c.totalCount) := by
  rw [startSync_completed_run state auth forceRefresh now st ps lastConvs lastTotal h1 h2 h3]
  refine ⟨⟨ps.flatMap Prod.fst ++ lastConvs,
    (if lastTotal = 0 then (ps.flatMap Prod.fst ++ lastConvs).length else lastTotal),
    now, true⟩, rfl, rfl, rfl, rfl, rfl, rfl, ?_⟩
  intro h
  rcases h with h | h
  · simp [h]
  · rcases Nat.eq_zero_or_pos lastTotal with h0 | h0
    · simp [h0]
    · simp [Nat.pos_iff_ne_zero.mp h0, h]

/-- Claim C4, witness: a two-page run whose last page reports a total equal
to the accumulated count. -/
theorem claim_C4_witness :
    ∃ c, (startSyncModel ⟨false, false⟩ authOkResult true 1000 emptyStore
        (goodScript [([convA], 2)] ++ [FetchOutcome.page (some [convB]) 2 false]) none).1.cache =
        some c ∧
      c.syncComplete = true ∧
      c.conversations = ([([convA], 2)] : List (List UnifiedConversation × Nat)).flatMap Prod.fst
        ++ [convB] ∧
      c.totalCount = (if (2 : Nat) = 0 then c.conversations.length else 2) ∧
      (startSyncModel ⟨false, false⟩ authOkResult true 1000 emptyStore
        (goodScript [([convA], 2)] ++ [FetchOutcome.page (some [convB]) 2 false]) none).1.syncProgress
        = none ∧
      (startSyncModel ⟨false, false⟩ authOkResult true 1000 emptyStore
        (goodScript [([convA], 2)] ++ [FetchOutcome.page (some [convB]) 2 false]) none).2.1.inProgress
        = false ∧
      ((2 : Nat) = 0 ∨ (2 : Nat) =
          (([([convA], 2)] : List (List UnifiedConversation × Nat)).flatMap Prod.fst
            ++ [convB]).length →
        c.conversations.length = c.totalCount) :=
  claim_C4_amended ⟨false, false⟩ authOkResult true 1000 emptyStore [([convA], 2)] [convB] 2
    rfl rfl (Or.inl rfl)

/-- Claim C5: when the adapter throws during a page fetch (for example an
HTTP 429 on page 2), the run ends in the failed state — the sync error is set
to the failure message (String(err) at src/background.ts line 229), the sync
progress entry is removed (line 232), the inProgress flag is back to false
(the finally block, line 234), and the cache still holds exactly what the
prior pages persisted (the catch block never touches the cache key). -/
theorem claim_C5_failed_page (state : EngineState) (auth : AuthResult) (forceRefresh : Bool)
    (now : Nat) (st : LocalStore) (ps : List (List UnifiedConversation × Nat))
    (msg : String) (rest : List FetchOutcome)
    (h1 : state.inProgress = false) (h2 : auth.ok = true)
    (h3 : forceRefresh = true ∨ cacheIsFresh st.cache now = false) :
    (startSyncModel state auth forceRefresh now st
        (goodScript ps ++ FetchOutcome.throwErr msg :: rest) none).1.syncError = some msg ∧
    (startSyncModel state auth forceRefresh now st
        (goodScript ps ++ FetchOutcome.throwErr msg :: rest) none).1.syncProgress = none ∧
    (startSyncModel state auth forceRefresh now st
        (goodScript ps ++ FetchOutcome.throwErr msg :: rest) none).2.1.inProgress = false ∧
    (startSyncModel state auth forceRefresh now st
        (goodScript ps ++ FetchOutcome.throwErr msg :: rest) none).2.2.2 =
      RunExit.ran (LoopExit.threw msg) ∧
    (ps = [] → (startSyncModel state auth forceRefresh now st
        (goodScript ps ++ FetchOutcome.throwErr msg :: rest) none).1.cache = st.cache) ∧
    (ps ≠ [] → ∃ tc, (startSyncModel state auth forceRefresh now st
        (goodScript ps ++ FetchOutcome.throwErr msg :: rest) none).1.cache =
      some ⟨ps.flatMap Prod.fst, tc, now, false⟩) := by
  have hcond : (!forceRefresh && cacheIsFresh st.cache now) = false := by
    rcases h3 with h3 | h3 <;> simp [h3]
  have hloop := syncLoop_goodScript none now ps (FetchOutcome.throwErr msg :: rest) 0 []
    { st with syncError := none } (by intro j _; rfl)
  have hthrow : syncLoop none now (FetchOutcome.throwErr msg :: rest)
      (0 + ps.length) ([] ++ ps.flatMap Prod.fst)
      (pagesState now [] ps { st with syncError := none }) =
      (pagesState now [] ps { st with syncError := none },
       [AdapterCall.getConversations ((0 + ps.length) * SYNC_BATCH_SIZE) SYNC_BATCH_SIZE],
       .threw msg) := by
    rw [syncLoop]
    simp [abortSeen]
  rw [hthrow] at hloop
  simp only [startSyncModel, h1, h2, hcond]
  simp only [Bool.not_true, Bool.false_and, Bool.false_eq_true, if_false, ite_false]
  rw [hloop]
  refine ⟨rfl, rfl, rfl, rfl, ?_, ?_⟩
  · intro hps
    subst hps
    rfl
  · intro hps
    obtain ⟨tc, htc⟩ := pagesState_cache now ps [] { st with syncError := none } hps
    refine ⟨tc, ?_⟩
    simp [htc]

/-- Claim C5, witness: page 1 succeeds, page 2 throws a 429 failure. -/
theorem claim_C5_witness :
    (startSyncModel ⟨false, false⟩ authOkResult true 1000 emptyStore
        (goodScript [([convA], 2)] ++ FetchOutcome.throwErr "Error: API error: 429" :: []) none).1.syncError
      = some "Error: API error: 429" ∧
    (startSyncModel ⟨false, false⟩ authOkResult true 1000 emptyStore
        (goodScript [([convA], 2)] ++ FetchOutcome.throwErr "Error: API error: 429" :: []) none).1.syncProgress
      = none ∧
    (startSyncModel ⟨false, false⟩ authOkResult true 1000 emptyStore
        (goodScript [([convA], 2)] ++ FetchOutcome.throwErr "Error: API error: 429" :: []) none).2.1.inProgress
      = false ∧
    (startSyncModel ⟨false, false⟩ authOkResult true 1000 emptyStore
        (goodScript [([convA], 2)] ++ FetchOutcome.throwErr "Error: API error: 429" :: []) none).2.2.2
      = RunExit.ran (LoopExit.threw "Error: API error: 429") ∧
    (([([convA], 2)] : List (List UnifiedConversation × Nat)) = [] →
      (startSyncModel ⟨false, false⟩ authOkResult true 1000 emptyStore
        (goodScript [([convA], 2)] ++ FetchOutcome.throwErr "Error: API error: 429" :: []) none).1.cache
      = emptyStore.cache) ∧
    (([([convA], 2)] : List (List UnifiedConversation × Nat)) ≠ [] →
      ∃ tc, (startSyncModel ⟨false, false⟩ authOkResult true 1000 emptyStore
        (goodScript [([convA], 2)] ++ FetchOutcome.throwErr "Error: API error: 429" :: []) none).1.cache
      = some ⟨([([convA], 2)] : List (List UnifiedConversation × Nat)).flatMap Prod.fst, tc, 1000, false⟩) :=
  claim_C5_failed_page ⟨false, false⟩ authOkResult true 1000 emptyStore [([convA], 2)]
    "Error: API error: 429" [] rfl rfl (Or.inl rfl)

/-- Claim C6: a run aborted via a stop request mid-pagination (the abort flag
becomes visible at the top-of-loop check after k full pages were fetched and
persisted, k at least 1, with more pages remaining) leaves the cache holding
exactly the conversations of the k persisted pages with syncComplete = false,
removes the sync progress entry, and returns the run state to idle
(inProgress = false).  The abort flag is only consulted at the top of each
iteration (the while condition at src/background.ts line 176), so the page in
flight when stopSync runs is always completed and persisted — this is what
the index k of the model's abortAt parameter expresses. -/
theorem claim_C6_aborted_run (state : EngineState) (auth : AuthResult) (forceRefresh : Bool)
    (now : Nat) (st : LocalStore) (ps : List (List UnifiedConversation × Nat))
    (rest : List FetchOutcome)
    (h1 : state.inProgress = false) (h2 : auth.ok = true)
    (h3 : forceRefresh = true ∨ cacheIsFresh st.cache now = false)
    (h4 : ps ≠ []) :
    (startSyncModel state auth forceRefresh now st (goodScript ps ++ rest)
        (some ps.length)).1.syncProgress = none ∧
    (startSyncModel state auth forceRefresh now st (goodScript ps ++ rest)
        (some ps.length)).2.1.inProgress = false ∧
    (startSyncModel state auth forceRefresh now st (goodScript ps ++ rest)
        (some ps.length)).2.2.2 = RunExit.ran LoopExit.abortedExit ∧
    (startSyncModel state auth forceRefresh now st (goodScript ps ++ rest)
        (some ps.length)).1.syncError = none ∧
    ∃ tc, (startSyncModel state auth forceRefresh now st (goodScript ps ++ rest)
        (some ps.length)).1.cache = some ⟨ps.flatMap Prod.fst, tc, now, false⟩ := by
  have hcond : (!forceRefresh && cacheIsFresh st.cache now) = false := by
    rcases h3 with h3 | h3 <;> simp [h3]
  have hloop := syncLoop_goodScript (some ps.length) now ps rest 0 []
    { st with syncError := none }
    (by intro j hj; simp only [abortSeen]; simp; omega)
  have habort : syncLoop (some ps.length) now rest (0 + ps.length)
      ([] ++ ps.flatMap Prod.fst) (pagesState now [] ps { st with syncError := none }) =
      (pagesState now [] ps { st with syncError := none }, [], .abortedExit) := by
    rw [syncLoop.eq_def]
    simp [abortSeen]
  rw [habort] at hloop
  simp only [startSyncModel, h1, h2, hcond]
  simp only [Bool.not_true, Bool.false_and, Bool.false_eq_true, if_false, ite_false]
  rw [hloop]
  obtain ⟨tc, htc⟩ := pagesState_cache now ps [] { st with syncError := none } h4
  refine ⟨rfl, rfl, rfl, ?_, ⟨tc, ?_⟩⟩
  · simp [pagesState_syncError]
  · simp [htc]

/-- Claim C6, witness: one persisted page, abort visible before page 2. -/
theorem claim_C6_witness :
    (startSyncModel ⟨false, false⟩ authOkResult true 1000 emptyStore
        (goodScript [([convA], 2)] ++ [FetchOutcome.page (some [convB]) 2 false])
        (some 1)).1.syncProgress = none ∧
    (startSyncModel ⟨false, false⟩ authOkResult true 1000 emptyStore
        (goodScript [([convA], 2)] ++ [FetchOutcome.page (some [convB]) 2 false])
        (some 1)).2.1.inProgress = false ∧
    (startSyncModel ⟨false, false⟩ authOkResult true 1000 emptyStore
        (goodScript [([convA], 2)] ++ [FetchOutcome.page (some [convB]) 2 false])
        (some 1)).2.2.2 = RunExit.ran LoopExit.abortedExit ∧
    (startSyncModel ⟨false, false⟩ authOkResult true 1000 emptyStore
        (goodScript [([convA], 2)] ++ [FetchOutcome.page (some [convB]) 2 false])
        (some 1)).1.syncError = none ∧
    ∃ tc, (startSyncModel ⟨false, false⟩ authOkResult true 1000 emptyStore
        (goodScript [([convA], 2)] ++ [FetchOutcome.page (some [convB]) 2 false])
        (some 1)).1.cache =
      some ⟨([([convA], 2)] : List (List UnifiedConversation × Nat)).flatMap Prod.fst, tc, 1000, false⟩ :=
  claim_C6_aborted_run ⟨false, false⟩ authOkResult true 1000 emptyStore [([convA], 2)]
    [FetchOutcome.page (some [convB]) 2 false] rfl rfl (Or.inl rfl) (by decide)


/-- A delete message is only ever issued for an id whose backup succeeded,
when the backup flow is engaged. -/
theorem processDeletions_deleteCall_backup_ok (backupErr deleteErr : String → Option String)
    (ids : List String) :
    ∀ (cached : List UnifiedConversation) (i : String),
    DelCall.deleteCall i ∈ (processDeletions true backupErr deleteErr ids cached).1 →
    backupErr i = none := by
  induction ids with
  | nil =>
    intro cached i hm
    simp [processDeletions] at hm
  | cons x rest ih =>
    intro cached i hm
    cases hbx : backupErr x with
    | some e =>
      simp [processDeletions, hbx] at hm
      exact ih cached i hm
    | none =>
      cases hdx : deleteErr x with
      | some e =>
        simp [processDeletions, hbx, hdx] at hm
        rcases hm with rfl | hm
        · exact hbx
        · exact ih cached i hm
      | none =>
        simp [processDeletions, hbx, hdx] at hm
        rcases hm with rfl | hm
        · exact hbx
        · exact ih _ i hm

/-- Claim C9: with backup-before-delete engaged, for every id in the
confirmed batch — if its backup fails, its delete message is never issued and
the id is reported failed; if its backup succeeds, the issued trace contains
its backup message immediately followed by its delete message (the backup
response is awaited before the delete is sent); and in every case the backup
message for each id in the batch is issued, so one item's failure does not
stop the processing of the others. -/
theorem claim_C9_backup_before_delete (backupErr deleteErr : String → Option String)
    (ids : List String) (cached : List UnifiedConversation) (id : String)
    (h : id ∈ ids) :
    (∀ e, backupErr id = some e →
      DelCall.deleteCall id ∉ (processDeletions true backupErr deleteErr ids cached).1 ∧
      id ∈ (processDeletions true backupErr deleteErr ids cached).2.1) ∧
    (backupErr id = none →
      ∃ l1 l2, (processDeletions true backupErr deleteErr ids cached).1 =
        l1 ++ DelCall.backupCall id :: DelCall.deleteCall id :: l2) ∧
    DelCall.backupCall id ∈ (processDeletions true backupErr deleteErr ids cached).1 := by
  induction ids generalizing cached with
  | nil => cases h
  | cons x rest ih =>
    rcases List.mem_cons.mp h with rfl | hrest
    · refine ⟨?_, ?_, ?_⟩
      · intro e he
        constructor
        · intro hmem
          have := processDeletions_deleteCall_backup_ok backupErr deleteErr (id :: rest)
            cached id hmem
          rw [he] at this
          cases this
        · rw [processDeletions]
          simp only [he, if_true]
          simp
      · intro hb
        rw [processDeletions]
        simp only [hb, if_true]
        cases hdx : deleteErr id with
        | some e => exact ⟨[], _, rfl⟩
        | none => exact ⟨[], _, rfl⟩
      · rw [processDeletions]
        cases hbx : backupErr id with
        | some e => simp
        | none => cases hdx : deleteErr id <;> simp [hdx]
    · refine ⟨?_, ?_, ?_⟩
      · intro e he
        constructor
        · intro hmem
          have := processDeletions_deleteCall_backup_ok backupErr deleteErr (x :: rest)
            cached id hmem
          rw [he] at this
          cases this
        · rw [processDeletions]
          cases hbx : backupErr x with
          | some e2 =>
            simp only [if_true]
            have := ((ih cached hrest).1 e he).2
            simp [this]
          | none =>
            cases hdx : deleteErr x with
            | some e2 =>
              simp only [if_true, hdx]
              have := ((ih cached hrest).1 e he).2
              simp [this]
            | none =>
              simp only [if_true, hdx]
              have := ((ih (cached.filter (fun c => c.id != x)) hrest).1 e he).2
              simp [this]
      · intro hb
        rw [processDeletions]
        cases hbx : backupErr x with
        | some e2 =>
          simp only [if_true]
          obtain ⟨l1, l2, hl⟩ := (ih cached hrest).2.1 hb
          exact ⟨DelCall.backupCall x :: l1, l2, by simp [hl]⟩
        | none =>
          cases hdx : deleteErr x with
          | some e2 =>
            simp only [if_true, hdx]
            obtain ⟨l1, l2, hl⟩ := (ih cached hrest).2.1 hb
            exact ⟨DelCall.backupCall x :: DelCall.deleteCall x :: l1, l2, by simp [hl]⟩
          | none =>
            simp only [if_true, hdx]
            obtain ⟨l1, l2, hl⟩ := (ih (cached.filter (fun c => c.id != x)) hrest).2.1 hb
            exact ⟨DelCall.backupCall x :: DelCall.deleteCall x :: l1, l2, by simp [hl]⟩
      · rw [processDeletions]
        cases hbx : backupErr x with
        | some e2 =>
          simp only [if_true]
          have := (ih cached hrest).2.2
          simp [this]
        | none =>
          cases hdx : deleteErr x with
          | some e2 =>
            simp only [if_true, hdx]
            have := (ih cached hrest).2.2
            simp [this]
          | none =>
            simp only [if_true, hdx]
            have := (ih (cached.filter (fun c => c.id != x)) hrest).2.2
            simp [this]

/-- Claim C9, witness: a two-item batch in which the backup of the first id
fails and the backup of the second succeeds. -/
theorem claim_C9_witness :
    (∀ e, (fun i => if i == "bad" then some "boom" else none) "bad" = some e →
      DelCall.deleteCall "bad" ∉ (processDeletions true
        (fun i => if i == "bad" then some "boom" else none) (fun _ => none)
        ["bad", "good"] []).1 ∧
      "bad" ∈ (processDeletions true
        (fun i => if i == "bad" then some "boom" else none) (fun _ => none)
        ["bad", "good"] []).2.1) ∧
    ((fun i => if i == "bad" then some "boom" else none) "bad" = none →
      ∃ l1 l2, (processDeletions true
        (fun i => if i == "bad" then some "boom" else none) (fun _ => none)
        ["bad", "good"] []).1 =
        l1 ++ DelCall.backupCall "bad" :: DelCall.deleteCall "bad" :: l2) ∧
    DelCall.backupCall "bad" ∈ (processDeletions true
      (fun i => if i == "bad" then some "boom" else none) (fun _ => none)
      ["bad", "good"] []).1 :=
  claim_C9_backup_before_delete (fun i => if i == "bad" then some "boom" else none)
    (fun _ => none) ["bad", "good"] [] "bad" (by simp)


/-- Every finished traversal equals filtering along the first-child path:
when traverseF returns within the fuel, its messages are exactly the emitted
messages of the nodes on the path computed by pathNodesF, in order. -/
theorem traverseF_eq_path (mapping : List (String × CGNode)) (now : Nat) :
    ∀ (fuel : Nat) (x : Option String) (msgs : List UnifiedMessage),
    traverseF mapping now fuel x = some msgs →
    ∃ nodes, pathNodesF mapping fuel x = some nodes ∧
      msgs = nodes.filterMap (emitNode now) := by
  intro fuel
  induction fuel with
  | zero => intro x msgs h; cases h
  | succ fuel ih =>
    intro x msgs h
    cases x with
    | none =>
      refine ⟨[], rfl, ?_⟩
      cases h
      rfl
    | some nodeId =>
      by_cases hid : nodeId = ""
      · subst hid
        refine ⟨[], by rw [pathNodesF]; simp, ?_⟩
        rw [traverseF] at h
        simp at h
        simp [h]
      · cases hlook : lookupNode mapping nodeId with
        | none =>
          rw [traverseF] at h
          rw [pathNodesF]
          simp [hid, hlook] at h ⊢
          simp [h]
        | some node =>
          rw [traverseF] at h
          simp only [hid, if_false, hlook] at h
          cases hemit : emitNode now node with
          | some m =>
            rw [hemit] at h
            cases htail : traverseF mapping now fuel node.children.head? with
            | none => rw [htail] at h; cases h
            | some t =>
              rw [htail] at h
              obtain ⟨nodes, hp, hf⟩ := ih node.children.head? t htail
              refine ⟨node :: nodes, ?_, ?_⟩
              · rw [pathNodesF]
                simp [hid, hlook, hp]
              · simp only [Option.map_some] at h
                cases h
                simp [List.filterMap_cons, hemit, hf]
          | none =>
            rw [hemit] at h
            obtain ⟨nodes, hp, hf⟩ := ih node.children.head? msgs h
            refine ⟨node :: nodes, ?_, ?_⟩
            · rw [pathNodesF]
              simp [hid, hlook, hp]
            · simp [List.filterMap_cons, hemit, hf]

/-- Claim C7: whenever the ChatGPT extraction finishes (the traversal
terminates within some fuel, as it does for every acyclic mapping), the
returned messages are exactly those obtained by walking the first-child path
from the root (the first mapping key with a falsy parent) in root-to-leaf
order and keeping only the nodes passing the adapter's filter: present
message, content, parts and author, author role user or assistant, and
joined content parts non-empty after trimming.  Nodes off that path (such as
second children) never contribute, because the result is a function of the
path alone. -/
theorem claim_C7_extract_first_child_path (detail : CGDetail) (now fuel : Nat)
    (msgs : List UnifiedMessage)
    (h : extractMessagesF now fuel detail = some msgs) :
    ∃ nodes, pathNodesF detail.mapping fuel (rootId detail.mapping) = some nodes ∧
      msgs = nodes.filterMap (emitNode now) :=
  traverseF_eq_path detail.mapping now fuel (rootId detail.mapping) msgs h

/-- Claim C7, witness: the branching example of the specification — the
root's chain goes through a user node saying hi, whose first child is an
assistant saying hello and whose second child (an assistant saying hey) is
off the path; the extraction yields exactly the hi and hello messages. -/
theorem claim_C7_witness :
    ∃ nodes, pathNodesF
        ([("r", ⟨none, ["A"], none⟩),
          ("A", ⟨some "r", ["B", "C"], some ⟨"mA", some ⟨"user"⟩, some ⟨some ["hi"]⟩, some 1⟩⟩),
          ("B", ⟨some "A", [], some ⟨"mB", some ⟨"assistant"⟩, some ⟨some ["hello"]⟩, some 2⟩⟩),
          ("C", ⟨some "A", [], some ⟨"mC", some ⟨"assistant"⟩, some ⟨some ["hey"]⟩, some 3⟩⟩)]
          : List (String × CGNode)) 5
        (rootId [("r", ⟨none, ["A"], none⟩),
          ("A", ⟨some "r", ["B", "C"], some ⟨"mA", some ⟨"user"⟩, some ⟨some ["hi"]⟩, some 1⟩⟩),
          ("B", ⟨some "A", [], some ⟨"mB", some ⟨"assistant"⟩, some ⟨some ["hello"]⟩, some 2⟩⟩),
          ("C", ⟨some "A", [], some ⟨"mC", some ⟨"assistant"⟩, some ⟨some ["hey"]⟩, some 3⟩⟩)]) =
        some nodes ∧
      [(⟨"mA", "user", "hi", 1000⟩ : UnifiedMessage), ⟨"mB", "assistant", "hello", 2000⟩] =
        nodes.filterMap (emitNode 0) :=
  claim_C7_extract_first_child_path
    ⟨[("r", ⟨none, ["A"], none⟩),
      ("A", ⟨some "r", ["B", "C"], some ⟨"mA", some ⟨"user"⟩, some ⟨some ["hi"]⟩, some 1⟩⟩),
      ("B", ⟨some "A", [], some ⟨"mB", some ⟨"assistant"⟩, some ⟨some ["hello"]⟩, some 2⟩⟩),
      ("C", ⟨some "A", [], some ⟨"mC", some ⟨"assistant"⟩, some ⟨some ["hey"]⟩, some 3⟩⟩)]⟩
    0 5 [⟨"mA", "user", "hi", 1000⟩, ⟨"mB", "assistant", "hello", 2000⟩] (by decide)

/-- A traversal that runs out of fuel has visited one node per unit of fuel,
every visited id resolving in the mapping. -/
theorem traverseF_none_visited (mapping : List (String × CGNode)) (now : Nat) :
    ∀ (fuel : Nat) (x : Option String),
    traverseF mapping now fuel x = none →
    (visitedF mapping fuel x).length = fuel ∧
    ∀ i ∈ visitedF mapping fuel x, (lookupNode mapping i).isSome = true := by
  intro fuel
  induction fuel with
  | zero =>
    intro x _
    exact ⟨rfl, by intro i hi; cases hi⟩
  | succ fuel ih =>
    intro x h
    cases x with
    | none => cases h
    | some nodeId =>
      by_cases hid : nodeId = ""
      · subst hid; rw [traverseF] at h; simp at h
      · cases hlook : lookupNode mapping nodeId with
        | none => rw [traverseF] at h; simp [hid, hlook] at h
        | some node =>
          rw [traverseF] at h
          simp only [hid, if_false, hlook] at h
          have htail : traverseF mapping now fuel node.children.head? = none := by
            cases hemit : emitNode now node with
            | some m =>
              rw [hemit] at h
              cases htail : traverseF mapping now fuel node.children.head? with
              | none => rfl
              | some t => rw [htail] at h; cases h
            | none => rw [hemit] at h; exact h
          obtain ⟨hlen, hmem⟩ := ih node.children.head? htail
          constructor
          · rw [visitedF]
            simp [hid, hlook, hlen]
          · intro i hi
            rw [visitedF] at hi
            simp only [hid, if_false, hlook] at hi
            rcases List.mem_cons.mp hi with rfl | hi
            · rw [hlook]; rfl
            · exact hmem i hi

/-- Every id whose lookup succeeds is a key of the mapping. -/
theorem lookupNode_isSome_mem_keys (mapping : List (String × CGNode)) (i : String)
    (h : (lookupNode mapping i).isSome = true) : i ∈ mapping.map Prod.fst := by
  rw [lookupNode] at h
  cases hf : mapping.find? (fun p => p.1 == i) with
  | none => rw [hf] at h; cases h
  | some p =>
    have hmem := List.mem_of_find?_eq_some hf
    have hbeq : (p.1 == i) = true := by simpa using List.find?_some hf
    have hpi : p.1 = i := eq_of_beq hbeq
    subst hpi
    exact List.mem_map_of_mem Prod.fst hmem

/-- Claim C10: the ChatGPT message-tree traversal terminates whenever the
chain of first-child links from the root is acyclic — the visited ids being
pairwise distinct bounds the chain by the mapping size, so fuel
mapping.length + 1 suffices and a finite message list is returned; and for
the concrete mapping whose only node is its own first child (a first-child
cycle reachable from the root) the recursion never finishes for any fuel:
the code has no visited set or depth check. -/
theorem claim_C10_traversal_termination :
    (∀ (mapping : List (String × CGNode)) (now : Nat),
      (visitedF mapping (mapping.length + 1) (rootId mapping)).Nodup →
      ∃ msgs, extractMessagesF now (mapping.length + 1) ⟨mapping⟩ = some msgs) ∧
    (∀ (now fuel : Nat), extractMessagesF now fuel ⟨cycMapping⟩ = none) := by
  constructor
  · intro mapping now hnd
    cases hE : extractMessagesF now (mapping.length + 1) ⟨mapping⟩ with
    | some m => exact ⟨m, rfl⟩
    | none =>
      exfalso
      obtain ⟨hlen, hmem⟩ := traverseF_none_visited mapping now (mapping.length + 1)
        (rootId mapping) hE
      have hsub : visitedF mapping (mapping.length + 1) (rootId mapping) ⊆
          mapping.map Prod.fst :=
        fun i hi => lookupNode_isSome_mem_keys mapping i (hmem i hi)
      have hle := (List.subperm_of_subset hnd hsub).length_le
      rw [hlen, List.length_map] at hle
      omega
  · intro now fuel
    have key : ∀ n, traverseF cycMapping now n (some "a") = none := by
      intro n
      induction n with
      | zero => rfl
      | succ n ih =>
        rw [traverseF]
        simp [cycMapping, lookupNode, emitNode]
        exact ih
    have hroot : rootId cycMapping = some "a" := rfl
    show traverseF cycMapping now fuel (rootId cycMapping) = none
    rw [hroot]
    exact key fuel

/-- Claim C10, witness: a one-node acyclic mapping terminates with fuel 2,
and the cyclic mapping returns no result at fuel 7. -/
theorem claim_C10_witness :
    (∃ msgs, extractMessagesF 0 (([("r", (⟨none, [], none⟩ : CGNode))].length + 1))
        ⟨[("r", ⟨none, [], none⟩)]⟩ = some msgs) ∧
    extractMessagesF 0 7 ⟨cycMapping⟩ = none :=
  ⟨claim_C10_traversal_termination.1 [("r", ⟨none, [], none⟩)] 0 (by decide),
   claim_C10_traversal_termination.2 0 7⟩


/-- Claim C8: for every conversation list returned whole by the unpaginated
Claude API and all offset and limit, getConversations returns the slice
[offset, offset + limit) of the list sorted by updateTime descending, total
equal to the full list length, and hasMore equal to
offset + returned_count < total.  (The code computes hasMore as
offset + limit < total, which coincides with offset + returned_count < total
because returned_count = min limit (total - offset).)  The specification's
120-conversation instances follow by instantiation. -/
theorem claim_C8_claude_pagination (dateMs : String → Nat) (data : List ClaudeConversation)
    (offset limit : Nat) :
    (Claude.getConversations dateMs data offset limit).conversations =
      (((data.map (Claude.toUnifiedConversation dateMs)).mergeSort Claude.descLe).drop
        offset).take limit ∧
    (Claude.getConversations dateMs data offset limit).conversations.Pairwise
      (fun a b => b.updateTime ≤ a.updateTime) ∧
    (Claude.getConversations dateMs data offset limit).total = data.length ∧
    (Claude.getConversations dateMs data offset limit).hasMore =
      decide (offset + (Claude.getConversations dateMs data offset limit).conversations.length <
        (Claude.getConversations dateMs data offset limit).total) := by
  refine ⟨rfl, ?_, ?_, ?_⟩
  · have hs : List.Pairwise (fun a b => Claude.descLe a b = true)
        ((data.map (Claude.toUnifiedConversation dateMs)).mergeSort Claude.descLe) :=
      List.sorted_mergeSort
        (by intro a b c hab hbc; simp only [Claude.descLe, decide_eq_true_eq] at *; omega)
        (by intro a b; simp only [Claude.descLe]; rcases Nat.le_total a.updateTime b.updateTime
              with h | h <;> simp [h])
        _
    have hs2 : List.Pairwise
        (fun a b : UnifiedConversation => b.updateTime ≤ a.updateTime)
        ((data.map (Claude.toUnifiedConversation dateMs)).mergeSort Claude.descLe) :=
      hs.imp (by intro a b hab; simpa [Claude.descLe] using hab)
    exact List.Pairwise.sublist
      ((List.take_sublist _ _).trans (List.drop_sublist _ _)) hs2
  · show ((data.map (Claude.toUnifiedConversation dateMs)).mergeSort Claude.descLe).length
      = data.length
    rw [(List.mergeSort_perm _ _).length_eq, List.length_map]
  · show decide (offset + limit <
        ((data.map (Claude.toUnifiedConversation dateMs)).mergeSort Claude.descLe).length) =
      decide (offset +
        ((((data.map (Claude.toUnifiedConversation dateMs)).mergeSort Claude.descLe).drop
          offset).take limit).length <
        ((data.map (Claude.toUnifiedConversation dateMs)).mergeSort Claude.descLe).length)
    rw [decide_eq_decide]
    rw [List.length_take, List.length_drop]
    omega

end AIChatManager
